import Mathlib

/-!
Formal model of the vscode-csharp client glue code:
  - `src/lsptoolshost/OptionNameConverter.ts` (server option name translation),
  - `src/features/structureProvider.ts` (folding-range translation),
  - `src/shared/configurationProvider.ts` (debug-configuration resolution).

Strings are modelled as `List Char` where character-level index arithmetic
matters, and JavaScript values as the inductive `JVal`.  A debug configuration
is an association list of string keys to `JVal`s, mirroring the dynamic
key-based reads and writes of the TypeScript code.  Host-provided effects
(pickers, dialogs, the dev-certificate subprocess) are modelled as oracle
fields of a `Host` structure and as effect flags in the resolver's output.
-/

namespace VsCsharp

/-- JavaScript/JSON values as they appear in a debug configuration:
strings, numbers, booleans, arrays, objects, plus the `null` and
`undefined` sentinels that the TypeScript code tests for explicitly. -/
inductive JVal where
  | str (s : String)
  | num (n : Int)
  | bool (b : Bool)
  | arr (xs : List JVal)
  | obj (fields : List (String × JVal))
  | null
  | undef

/-- JavaScript truthiness of a value (`!v` in the source negates this). -/
def JVal.truthy : JVal → Bool
  | .str s => s ≠ ""
  | .num n => n ≠ 0
  | .bool b => b
  | .arr _ => true
  | .obj _ => true
  | .null => false
  | .undef => false

/-- Truthiness of a property read: reading an absent key yields `undefined`. -/
def optTruthy : Option JVal → Bool
  | none => false
  | some v => v.truthy

/-- The `.length` property: defined for strings and arrays, `undefined`
(here `none`) for the other value shapes that carry no such property. -/
def jsLength : JVal → Option Nat
  | .str s => some s.length
  | .arr xs => some xs.length
  | _ => none

/-- A property read is `=== undefined` when the key is absent or holds
the `undefined` value. -/
def isUndefinedRead : Option JVal → Bool
  | none => true
  | some .undef => true
  | some _ => false

/-- A property read is `== null` (nullish, as tested by `??=`) when the key
is absent or holds `null` or `undefined`. -/
def isNullishRead : Option JVal → Bool
  | none => true
  | some .undef => true
  | some .null => true
  | some _ => false

/-- Strict equality of a property read against a string literal,
as in `debugConfiguration.request === "launch"`. -/
def readIsStr : Option JVal → String → Bool
  | some (.str s), t => s = t
  | _, _ => false

/-- A debug configuration: an object, i.e. an ordered association list of
string keys to values.  Keys are unique in every configuration built by
the host, which theorems assume where needed. -/
def Config := List (String × JVal)

/-- Property read: the value at the first occurrence of the key. -/
def Config.get : Config → String → Option JVal
  | [], _ => none
  | (k, v) :: rest, key => if k = key then some v else Config.get rest key

/-- The `hasOwnProperty` test. -/
def Config.hasKey (c : Config) (k : String) : Bool :=
  (Config.get c k).isSome

/-- Property write: replace the value at an existing key in place,
otherwise append the new key at the end (JS object insertion order). -/
def Config.set : Config → String → JVal → Config
  | [], key, v => [(key, v)]
  | (k, w) :: rest, key, v =>
    if k = key then (k, v) :: rest else (k, w) :: Config.set rest key v

/-- The `delete` operator: remove the key's binding. -/
def Config.erase : Config → String → Config
  | [], _ => []
  | (k, w) :: rest, key =>
    if k = key then rest else (k, w) :: Config.erase rest key

/-! ### OptionNameConverter (`src/lsptoolshost/OptionNameConverter.ts`) -/

/-- Character index of the first occurrence of `c`, `none` standing for the
`-1` of JavaScript `indexOf`. -/
def firstIdx (c : Char) (cs : List Char) : Option Nat :=
  cs.findIdx? (· = c)

/-- Character index of the last occurrence of `c`, `none` standing for the
`-1` of JavaScript `lastIndexOf`. -/
def lastIdx (c : Char) (cs : List Char) : Option Nat :=
  match (cs.reverse).findIdx? (· = c) with
  | none => none
  | some i => some (cs.length - 1 - i)

/-- The `startsWith` test on character lists. -/
def listStartsWith : List Char → List Char → Bool
  | _, [] => true
  | [], _ :: _ => false
  | c :: cs, p :: ps => c = p && listStartsWith cs ps

/-- The `split(delimiter)` of JavaScript: splitting the empty string yields
one empty field, and delimiters at the ends yield empty fields. -/
def splitOnChar (delimiter : Char) : List Char → List (List Char)
  | [] => [[]]
  | c :: rest =>
    match splitOnChar delimiter rest with
    | [] => [[]]
    | w :: ws => if c = delimiter then [] :: w :: ws else (c :: w) :: ws

/-- Source `capitalize`: upper-case the first character; `charAt(0)` of the
empty string is the empty string, so the empty word is unchanged. -/
def capitalize (inputString : List Char) : List Char :=
  match inputString with
  | [] => []
  | c :: rest => Char.toUpper c :: rest

/-- Source `convertToCamelCase`: split on the delimiter, lower-case every
word, and when there are at least two words capitalize all but the first
and concatenate. -/
def convertToCamelCase (inputString : List Char) (delimiter : Char) : List Char :=
  let words := (splitOnChar delimiter inputString).map (fun w => w.map Char.toLower)
  match words with
  | [] => inputString.map Char.toLower
  | [_] => inputString.map Char.toLower
  | firstWord :: restWords => firstWord ++ (restWords.map capitalize).flatten

/-- Source `getPrefix`: the first entry of `prefixes` that the section starts
with, or the empty string. -/
def getPrefix (sec : List Char) (prefixes : List (List Char)) : List Char :=
  match prefixes with
  | [] => []
  | p :: rest => if listStartsWith sec p then p else getPrefix sec rest

/-- Source `convertServerOptionNameToClientConfigurationName` on character
lists.  `Except.error` models the `assert` throwing when the section has no
dot; `Except.ok none` models the `null` return for a non-`csharp` language
qualifier. -/
def convertServerOptionNameToClientConfigurationName (sectionStr : List Char) :
    Except (List Char) (Option (List Char)) :=
  let languageNameIndex := firstIdx '|' sectionStr
  let langOk : Bool :=
    match languageNameIndex with
    | none => true
    | some i => sectionStr.take i = "csharp".data
  if langOk then
    match lastIdx '.' sectionStr with
    | none => .error ("There is no . in ".data ++ sectionStr ++ ['.'])
    | some lastDotIndex =>
      let optionName := sectionStr.drop (lastDotIndex + 1)
      let startIndex : Nat :=
        match languageNameIndex with
        | none => 0
        | some i => i + 1
      let optionGroupName := (sectionStr.take lastDotIndex).drop startIndex
      let optionNamePre := getPrefix optionName ["dotnet".data, "csharp".data]
      let featureName :=
        if optionNamePre = [] then optionName
        else optionName.drop (optionNamePre.length + 1)
      let camelCaseGroupName := convertToCamelCase optionGroupName '_'
      let camelCaseFeatureName := convertToCamelCase featureName '_'
      .ok (some (if optionNamePre = [] then
          camelCaseGroupName ++ '.' :: camelCaseFeatureName
        else
          convertToCamelCase optionNamePre '_' ++
            '.' :: camelCaseGroupName ++ '.' :: camelCaseFeatureName))
  else
    .ok none

/-- String-level wrapper of the option-name conversion. -/
def convertServerOptionName (s : String) : Except String (Option String) :=
  match convertServerOptionNameToClientConfigurationName s.data with
  | .error e => .error (String.mk e)
  | .ok none => .ok none
  | .ok (some cs) => .ok (some (String.mk cs))

/-! ### Structure provider (`src/features/structureProvider.ts`) -/

/-- A zero-based text position of the block-structure protocol. -/
structure Point where
  Line : Nat
  Column : Nat

/-- A text range of the block-structure protocol. -/
structure SpanRange where
  Start : Point
  End : Point

/-- One span of the backend's block-structure response. -/
structure BlockSpan where
  Kind : String
  Range : SpanRange

/-- The folding-range kinds of the editor API. -/
inductive FoldingRangeKind where
  | comment
  | imports
  | region
deriving DecidableEq, Repr

/-- An editor folding range: start and end line, and an optional kind
(`none` models the `undefined` kind of an unclassified fold). -/
structure FoldingRange where
  start : Nat
  endLine : Nat
  kind : Option FoldingRangeKind
deriving DecidableEq, Repr

/-- Source `GetType`: map the span's kind string to a folding-range kind. -/
def GetType (type : String) : Option FoldingRangeKind :=
  if type = "Comment" then some .comment
  else if type = "Imports" then some .imports
  else if type = "Region" then some .region
  else none

/-- Source `provideFoldingRanges`: the backend response is either an error
(the `catch` path, yielding no ranges) or a list of spans, each translated
to a folding range with unchanged line numbers and translated kind. -/
def provideFoldingRanges (response : Except String (List BlockSpan)) :
    List FoldingRange :=
  match response with
  | .error _ => []
  | .ok spans =>
    spans.map (fun member =>
      { start := member.Range.Start.Line
        endLine := member.Range.End.Line
        kind := GetType member.Kind })

/-! ### Configuration provider (`src/shared/configurationProvider.ts`) -/

/-- Source `CheckIfSettingIsEmpty`.  `typeof null` is `"object"` and
`Object.keys(null)` throws, and values of other types reach the `default`
throw; both are modelled as `Except.error`. -/
def CheckIfSettingIsEmpty : JVal → Except String Bool
  | .arr xs => .ok (xs.length = 0)
  | .obj fields => .ok (fields.length = 0)
  | .null => .error "TypeError: cannot convert null to object"
  | .str s => .ok (s = "")
  | .bool _ => .ok false
  | .num _ => .ok false
  | .undef => .error "Unknown type to check to see if setting is empty"

/-- One iteration of the `loadSettingDebugOptions` loop: skip keys the
configuration already has and the reserved `console` key, then skip empty
values and merge the rest. -/
def mergeSetting (cfg : Config) (kv : String × JVal) : Except String Config :=
  if Config.hasKey cfg kv.1 || kv.1 = "console" then pure cfg
  else do
    let isEmpty ← CheckIfSettingIsEmpty kv.2
    pure (if isEmpty then cfg else Config.set cfg kv.1 kv.2)

/-- Source `loadSettingDebugOptions`: iterate `mergeSetting` over the
user-level `csharp.debug` settings, keys in object order. -/
def loadSettingDebugOptions (settings : List (String × JVal)) (cfg : Config) :
    Except String Config :=
  match settings with
  | [] => pure cfg
  | kv :: rest => do
    let c1 ← mergeSetting cfg kv
    loadSettingDebugOptions rest c1

/-- The three-way return of `resolveDebugConfiguration`: a configuration,
`undefined`, or `null`. -/
inductive ResolveRet where
  | config (c : Config)
  | undef
  | null

/-- Source `resolveDebugConfiguration`: an empty configuration defers to the
C# Dev Kit extension when present (`undefined`) and otherwise asks the host
to prompt (`null`); a non-empty configuration gets the user-level settings
merged in. -/
def resolveDebugConfiguration (hasDevKit : Bool)
    (settings : List (String × JVal)) (cfg : Config) :
    Except String ResolveRet :=
  if cfg.length = 0 then
    pure (if hasDevKit then .undef else .null)
  else do
    let c ← loadSettingDebugOptions settings cfg
    pure (.config c)

/-- An attachable process as supplied by a process picker. -/
structure AttachItem where
  id : String
  flags : Nat

/-- Which process picker an attach resolution used. -/
inductive Picker where
  | remote
  | local
deriving DecidableEq, Repr

/-- The host environment of `resolveDebugConfigurationWithSubstitutedVariables`:
platform facts, editor-session facts, and oracles for the interactive pickers
and the environment-file parser. `envParse` takes the `envFile` value and the
current `env` value and yields the new `env` object plus an optional warning,
or the error thrown by `ParsedEnvironmentFile.CreateFromFile`. -/
structure Host where
  isLinux : Bool
  isMacOS : Bool
  architecture : String
  remoteName : Option String
  uiKindIsWeb : Bool
  brokeredServicePipeName : Option String
  folderPath : Option String
  remotePick : Option AttachItem
  localPick : Option AttachItem
  envParse : JVal → Option JVal → Except String (JVal × Option String)

/-- Truthiness of `vscode.env.remoteName` (a string or `undefined`). -/
def remoteNameTruthy : Option String → Bool
  | none => false
  | some s => s ≠ ""

/-- The return value of `resolveDebugConfigurationWithSubstitutedVariables`:
the enriched configuration, the `null` and `undefined` abort signals, or a
thrown error. -/
inductive ResolveWSRet where
  | conf (c : Config)
  | null
  | undef
  | thrown (msg : String)

/-- Observable outcome of one resolution call: the return value, the final
state of the (in-place mutated) configuration object, and effect flags for
the dev-certificate check, the modal no-process error, the picker used, and
the env-file warning dialog. -/
structure ResolveWSOut where
  ret : ResolveWSRet
  finalCfg : Config
  devCertChecked : Bool
  modalErrorShown : Bool
  pickerUsed : Option Picker
  warningShown : Option String

/-- The guard of the env-file step:
`debugConfiguration.envFile !== undefined && debugConfiguration.envFile.length > 0`.
Reading `.length` of `null` throws; of a number or boolean it is `undefined`,
and `undefined > 0` is false. -/
def envFileGuard (c : Config) : Except String Bool :=
  match Config.get c "envFile" with
  | none => .ok false
  | some .undef => .ok false
  | some .null => .error "TypeError: cannot read length of null"
  | some v => .ok (0 < (jsLength v).getD 0)

/-- Launch defaulting of `cwd`: when both `cwd` and `pipeTransport` are
falsy, assign the workspace folder path (`undefined` when no folder). -/
def cwdStep (host : Host) (cfg : Config) : Config :=
  if !optTruthy (Config.get cfg "cwd") &&
      !optTruthy (Config.get cfg "pipeTransport") then
    Config.set cfg "cwd"
      (match host.folderPath with
       | some p => .str p
       | none => .undef)
  else cfg

/-- Launch defaulting of `internalConsoleOptions` via `??=`. -/
def icoStep (cfg : Config) : Config :=
  if isNullishRead (Config.get cfg "internalConsoleOptions") then
    Config.set cfg "internalConsoleOptions" (.str "openOnSessionStart")
  else cfg

/-- The env-file merge of the launch branch (`parseEnvFile`): parse the file,
store the merged `env` object, delete `envFile`, and report an optional
warning; a parse failure rethrows with the cause embedded.  The error carries
the configuration state at the throw point. -/
def envFileStep (host : Host) (cfg : Config) :
    Except (String × Config) (Config × Option String) :=
  match envFileGuard cfg with
  | .error e => .error (e, cfg)
  | .ok false => .ok (cfg, none)
  | .ok true =>
    match host.envParse ((Config.get cfg "envFile").getD .undef)
        (Config.get cfg "env") with
    | .error e =>
      .error ("Cannot parse envFile because of " ++ e, cfg)
    | .ok (envObj, warning) =>
      .ok (Config.erase (Config.set cfg "env" envObj) "envFile", warning)

/-- The launch branch of the resolver: default `cwd` and
`internalConsoleOptions`, then parse and merge the env file. -/
def launchStep (host : Host) (cfg : Config) :
    Except (String × Config) (Config × Option String) :=
  if readIsStr (Config.get cfg "request") "launch" then
    envFileStep host (icoStep (cwdStep host cfg))
  else .ok (cfg, none)

/-- Outcome of the attach branch: proceed with the (possibly enriched)
configuration, or abort with `undefined` after the modal error. -/
inductive AttachOut where
  | proceed (c : Config) (picker : Option Picker)
  | abortUndefined (c : Config) (picker : Option Picker)

/-- Which picker the attach branch consults: remote when a `pipeTransport`
is configured, local otherwise. -/
def pickerChoice (cfg : Config) : Picker :=
  if optTruthy (Config.get cfg "pipeTransport") then .remote else .local

/-- The process supplied by the chosen picker's oracle. -/
def pickedProcess (host : Host) (picker : Picker) : Option AttachItem :=
  match picker with
  | .remote => host.remotePick
  | .local => host.localPick

/-- Enrichment applied once a process was selected: record `processId`, and
on macOS/arm64 for `coreclr` set `targetArchitecture` from `P_TRANSLATED`. -/
def attachEnrich (host : Host) (cfg : Config) (p : AttachItem) : Config :=
  if readIsStr (Config.get (Config.set cfg "processId" (.str p.id)) "type")
        "coreclr" &&
      host.isMacOS && host.architecture = "arm64" then
    Config.set (Config.set cfg "processId" (.str p.id)) "targetArchitecture"
      (.str (if p.flags &&& 0x20000 ≠ 0 then "x86_64" else "arm64"))
  else Config.set cfg "processId" (.str p.id)

/-- The attach branch of the resolver: when the request is `attach` and both
`processId` and `processName` are falsy, ask the remote or local picker;
enrich the configuration when a process was selected and abort with a modal
error otherwise. -/
def attachStep (host : Host) (cfg : Config) : AttachOut :=
  if readIsStr (Config.get cfg "request") "attach" &&
      !optTruthy (Config.get cfg "processId") &&
      !optTruthy (Config.get cfg "processName") then
    match pickedProcess host (pickerChoice cfg) with
    | some p => .proceed (attachEnrich host cfg p) (some (pickerChoice cfg))
    | none => .abortUndefined cfg (some (pickerChoice cfg))
  else .proceed cfg none

/-- The dev-certificate step: outside Linux, remote sessions, the web UI and
pipe transports, default `checkForDevCert` to `true` for `coreclr`
configurations with a `serverReadyAction`, then invoke the certificate check
when `checkForDevCert` is truthy.  Returns the configuration and whether
`checkForDevCerts` was invoked.  `devCertDefault` is the inner defaulting:
for a `coreclr` configuration with a `serverReadyAction` and no explicit
`checkForDevCert`, set `checkForDevCert` to `true`. -/
def devCertDefault (cfg : Config) : Config :=
  if isUndefinedRead (Config.get cfg "checkForDevCert") &&
      optTruthy (Config.get cfg "serverReadyAction") &&
      readIsStr (Config.get cfg "type") "coreclr" then
    Config.set cfg "checkForDevCert" (.bool true)
  else cfg

def devCertStep (host : Host) (cfg : Config) : Config × Bool :=
  if !host.isLinux && !remoteNameTruthy host.remoteName &&
      !host.uiKindIsWeb && !optTruthy (Config.get cfg "pipeTransport") then
    (devCertDefault cfg,
      optTruthy (Config.get (devCertDefault cfg) "checkForDevCert"))
  else (cfg, false)

/-- Recording of the brokered service pipe name when the host provides one. -/
def brokeredStep (host : Host) (cfg : Config) : Config :=
  match host.brokeredServicePipeName with
  | some p => Config.set cfg "brokeredServicePipeName" (.str p)
  | none => cfg

/-- Source `resolveDebugConfigurationWithSubstitutedVariables`: reject a
configuration with a falsy `type` with `null`, record the brokered service
pipe name, then run the launch branch, the attach branch, and the
dev-certificate step. -/
def resolveDebugConfigurationWithSubstitutedVariables
    (host : Host) (cfg0 : Config) : ResolveWSOut :=
  if !optTruthy (Config.get cfg0 "type") then
    { ret := .null, finalCfg := cfg0, devCertChecked := false,
      modalErrorShown := false, pickerUsed := none, warningShown := none }
  else
    match launchStep host (brokeredStep host cfg0) with
    | .error (msg, c) =>
      { ret := .thrown msg, finalCfg := c, devCertChecked := false,
        modalErrorShown := false, pickerUsed := none, warningShown := none }
    | .ok (cfg2, warning) =>
      match attachStep host cfg2 with
      | .abortUndefined c picker =>
        { ret := .undef, finalCfg := c, devCertChecked := false,
          modalErrorShown := true, pickerUsed := picker,
          warningShown := warning }
      | .proceed cfg3 picker =>
        { ret := .conf (devCertStep host cfg3).1,
          finalCfg := (devCertStep host cfg3).1,
          devCertChecked := (devCertStep host cfg3).2,
          modalErrorShown := false,
          pickerUsed := picker, warningShown := warning }

/-- A concrete host environment used to instantiate theorems: a macOS arm64
desktop session with a local picker offering one translated process. -/
def sampleHost : Host :=
  { isLinux := false
    isMacOS := true
    architecture := "arm64"
    remoteName := none
    uiKindIsWeb := false
    brokeredServicePipeName := none
    folderPath := some "/work"
    remotePick := none
    localPick := some { id := "1234", flags := 0x20000 }
    envParse := fun _ _ => .ok (.obj [], none) }

/-! ## Basic facts about configuration reads and writes -/

theorem Config.get_set_self (c : Config) (k : String) (v : JVal) :
    Config.get (Config.set c k v) k = some v := by
  induction c with
  | nil => simp [Config.set, Config.get]
  | cons hd tl ih =>
    obtain ⟨k0, w⟩ := hd
    by_cases h : k0 = k
    · simp [Config.set, h, Config.get]
    · simp [Config.set, h, Config.get, ih]

theorem Config.get_set_ne (c : Config) (k k' : String) (v : JVal)
    (h : k' ≠ k) :
    Config.get (Config.set c k v) k' = Config.get c k' := by
  induction c with
  | nil => simp [Config.set, Config.get, Ne.symm h]
  | cons hd tl ih =>
    obtain ⟨k0, w⟩ := hd
    by_cases h0 : k0 = k
    · subst h0
      simp [Config.set, Config.get, Ne.symm h]
    · simp [Config.set, h0, Config.get, ih]

theorem Config.get_erase_ne (c : Config) (k k' : String) (h : k' ≠ k) :
    Config.get (Config.erase c k) k' = Config.get c k' := by
  induction c with
  | nil => simp [Config.erase]
  | cons hd tl ih =>
    obtain ⟨k0, w⟩ := hd
    by_cases h0 : k0 = k
    · subst h0
      simp [Config.erase, Config.get, Ne.symm h]
    · simp [Config.erase, h0, Config.get, ih]

/-! ## Folding ranges -/

/-- C9: every span of the backend response yields one folding range at the
same position, whose start and end lines equal the span's line numbers
unchanged, whose kind is Comment/Imports/Region exactly for those kind
strings, and which is unclassified for any other kind string. -/
theorem C9_thm (spans : List BlockSpan) (i : Nat) (m : BlockSpan)
    (hm : spans[i]? = some m) :
    ∃ r, (provideFoldingRanges (Except.ok spans))[i]? = some r ∧
      r.start = m.Range.Start.Line ∧
      r.endLine = m.Range.End.Line ∧
      (m.Kind = "Comment" → r.kind = some .comment) ∧
      (m.Kind = "Imports" → r.kind = some .imports) ∧
      (m.Kind = "Region" → r.kind = some .region) ∧
      (m.Kind ≠ "Comment" → m.Kind ≠ "Imports" → m.Kind ≠ "Region" →
        r.kind = none) := by
  refine ⟨{ start := m.Range.Start.Line, endLine := m.Range.End.Line,
            kind := GetType m.Kind }, ?_, rfl, rfl, ?_, ?_, ?_, ?_⟩
  · simp [provideFoldingRanges, hm]
  · intro h
    simp [GetType, h]
  · intro h
    simp [GetType, h]
  · intro h
    simp [GetType, h]
  · intro h1 h2 h3
    simp [GetType, h1, h2, h3]

/-- Witness for C9 on a concrete one-span response of kind `Region`. -/
theorem C9_witness :
    ∃ r, (provideFoldingRanges (Except.ok
        [{ Kind := "Region",
           Range := { Start := { Line := 3, Column := 0 },
                      End := { Line := 7, Column := 2 } } }]))[0]? = some r ∧
      r.start = 3 ∧
      r.endLine = 7 ∧
      (("Region" : String) = "Comment" → r.kind = some .comment) ∧
      (("Region" : String) = "Imports" → r.kind = some .imports) ∧
      (("Region" : String) = "Region" → r.kind = some .region) ∧
      (("Region" : String) ≠ "Comment" → ("Region" : String) ≠ "Imports" →
        ("Region" : String) ≠ "Region" → r.kind = none) := by
  exact C9_thm
    [{ Kind := "Region",
       Range := { Start := { Line := 3, Column := 0 },
                  End := { Line := 7, Column := 2 } } }] 0
    { Kind := "Region",
      Range := { Start := { Line := 3, Column := 0 },
                 End := { Line := 7, Column := 2 } } } rfl

/-! ## Option name conversion -/

/-- C7: the sample server option name is converted to the documented client
configuration name, and any section whose language qualifier (the part
before the bar) is not `csharp` converts to `null`. -/
theorem C7_thm :
    convertServerOptionName "csharp|implement_type.dotnet_insertion_behavior"
      = .ok (some "dotnet.implementType.insertionBehavior") ∧
    ∀ (s : List Char) (i : Nat), firstIdx '|' s = some i →
      s.take i ≠ "csharp".data →
      convertServerOptionNameToClientConfigurationName s = .ok none := by
  refine ⟨rfl, ?_⟩
  intro s i h1 h2
  simp [convertServerOptionNameToClientConfigurationName, h1, h2]

/-- Witness for C7 on a concrete section with a `java` language qualifier. -/
theorem C7_witness :
    convertServerOptionNameToClientConfigurationName "java|x.y".data
      = .ok none :=
  C7_thm.2 "java|x.y".data 4 rfl (by decide)

/-- C8 counterexample: the input `x|y` lacks any dot, yet the conversion
returns `null` rather than raising the assertion failure, because the
non-`csharp` language qualifier is rejected before the dot assertion runs. -/
theorem C8_cex :
    lastIdx '.' "x|y".data = none ∧
    convertServerOptionNameToClientConfigurationName "x|y".data
      = .ok none :=
  ⟨rfl, rfl⟩

/-- C8 (amended): an input lacking any dot separator raises the assertion
failure provided its language qualifier is absent or equal to `csharp`
(otherwise the conversion returns `null` before the assertion). -/
theorem C8_thm (s : List Char) (hdot : lastIdx '.' s = none)
    (hlang : firstIdx '|' s = none ∨
      ∃ i, firstIdx '|' s = some i ∧ s.take i = "csharp".data) :
    convertServerOptionNameToClientConfigurationName s
      = .error ("There is no . in ".data ++ s ++ ['.']) := by
  rcases hlang with h | ⟨i, h, htake⟩
  · simp [convertServerOptionNameToClientConfigurationName, h, hdot]
  · simp [convertServerOptionNameToClientConfigurationName, h, htake, hdot]

/-- Witness for C8 on the dotless input `abc`. -/
theorem C8_witness :
    convertServerOptionNameToClientConfigurationName "abc".data
      = .error ("There is no . in ".data ++ "abc".data ++ ['.']) :=
  C8_thm "abc".data rfl (Or.inl rfl)

/-! ## Debug configuration resolution: aborts and effects -/

/-- C6: a configuration whose `type` is absent is rejected with `null`,
without any modification of the configuration and without any effect. -/
theorem C6_thm (host : Host) (cfg : Config)
    (h : Config.get cfg "type" = none) :
    resolveDebugConfigurationWithSubstitutedVariables host cfg =
      { ret := .null, finalCfg := cfg, devCertChecked := false,
        modalErrorShown := false, pickerUsed := none,
        warningShown := none } := by
  simp [resolveDebugConfigurationWithSubstitutedVariables, h, optTruthy]

/-- Witness for C6 on a typeless attach configuration. -/
theorem C6_witness :
    resolveDebugConfigurationWithSubstitutedVariables sampleHost
        [("request", JVal.str "attach")] =
      { ret := .null, finalCfg := [("request", JVal.str "attach")],
        devCertChecked := false, modalErrorShown := false,
        pickerUsed := none, warningShown := none } :=
  C6_thm sampleHost [("request", JVal.str "attach")] rfl

/-- The certificate check is never invoked when the dev-cert guard's
platform or remote-context conjuncts fail. -/
theorem devCertStep_snd_false (host : Host) (c : Config)
    (h : host.isLinux = true ∨ remoteNameTruthy host.remoteName = true ∨
      host.uiKindIsWeb = true) :
    (devCertStep host c).2 = false := by
  rcases h with h | h | h <;> simp [devCertStep, h]

/-- C2: on Linux, in a remote session, or in the web UI, resolution never
invokes the developer-certificate check, whatever the configuration says. -/
theorem C2_thm (host : Host) (cfg : Config)
    (h : host.isLinux = true ∨ remoteNameTruthy host.remoteName = true ∨
      host.uiKindIsWeb = true) :
    (resolveDebugConfigurationWithSubstitutedVariables host cfg).devCertChecked
      = false := by
  unfold resolveDebugConfigurationWithSubstitutedVariables
  split
  · rfl
  · split
    · rfl
    · split
      · rfl
      · exact devCertStep_snd_false host _ h

/-- Witness for C2 on a Linux host with `checkForDevCert` explicitly true. -/
theorem C2_witness :
    (resolveDebugConfigurationWithSubstitutedVariables
        { sampleHost with isLinux := true }
        [("type", JVal.str "coreclr"),
         ("checkForDevCert", JVal.bool true)]).devCertChecked = false :=
  C2_thm { sampleHost with isLinux := true }
    [("type", JVal.str "coreclr"), ("checkForDevCert", JVal.bool true)]
    (Or.inl rfl)

/-! ## Key preservation through the resolver's steps -/

theorem brokeredStep_get_ne (host : Host) (c : Config) (k : String)
    (hk : k ≠ "brokeredServicePipeName") :
    Config.get (brokeredStep host c) k = Config.get c k := by
  unfold brokeredStep
  cases host.brokeredServicePipeName with
  | none => rfl
  | some p => exact Config.get_set_ne c _ k _ hk

theorem cwdStep_get_ne (host : Host) (c : Config) (k : String)
    (hk : k ≠ "cwd") :
    Config.get (cwdStep host c) k = Config.get c k := by
  unfold cwdStep
  split
  · exact Config.get_set_ne c _ k _ hk
  · rfl

theorem icoStep_get_ne (c : Config) (k : String)
    (hk : k ≠ "internalConsoleOptions") :
    Config.get (icoStep c) k = Config.get c k := by
  unfold icoStep
  split
  · exact Config.get_set_ne c _ k _ hk
  · rfl

theorem envFileStep_get_ne (host : Host) (c c2 : Config) (w : Option String)
    (h : envFileStep host c = .ok (c2, w)) (k : String)
    (h1 : k ≠ "env") (h2 : k ≠ "envFile") :
    Config.get c2 k = Config.get c k := by
  unfold envFileStep at h
  split at h
  · cases h
  · simp only [Except.ok.injEq, Prod.mk.injEq] at h
    rw [← h.1]
  · split at h
    · cases h
    · simp only [Except.ok.injEq, Prod.mk.injEq] at h
      rw [← h.1, Config.get_erase_ne _ _ _ h2, Config.get_set_ne _ _ _ _ h1]

theorem launchStep_get_ne (host : Host) (c c2 : Config) (w : Option String)
    (h : launchStep host c = .ok (c2, w)) (k : String)
    (h1 : k ≠ "cwd") (h2 : k ≠ "internalConsoleOptions")
    (h3 : k ≠ "env") (h4 : k ≠ "envFile") :
    Config.get c2 k = Config.get c k := by
  unfold launchStep at h
  split at h
  · rw [envFileStep_get_ne host _ _ _ h k h3 h4,
      icoStep_get_ne _ _ h2, cwdStep_get_ne _ _ _ h1]
  · simp only [Except.ok.injEq, Prod.mk.injEq] at h
    rw [← h.1]

theorem attachEnrich_get_ne (host : Host) (c : Config) (p : AttachItem)
    (k : String) (h1 : k ≠ "processId") (h2 : k ≠ "targetArchitecture") :
    Config.get (attachEnrich host c p) k = Config.get c k := by
  unfold attachEnrich
  split
  · rw [Config.get_set_ne _ _ _ _ h2, Config.get_set_ne _ _ _ _ h1]
  · rw [Config.get_set_ne _ _ _ _ h1]

theorem attachStep_proceed_get_ne (host : Host) (c c3 : Config)
    (pk : Option Picker) (h : attachStep host c = .proceed c3 pk)
    (k : String) (h1 : k ≠ "processId") (h2 : k ≠ "targetArchitecture") :
    Config.get c3 k = Config.get c k := by
  unfold attachStep at h
  split at h
  · split at h
    · simp only [AttachOut.proceed.injEq] at h
      rw [← h.1, attachEnrich_get_ne host c _ k h1 h2]
    · cases h
  · simp only [AttachOut.proceed.injEq] at h
    rw [← h.1]

theorem devCertStep_fst_get_ne (host : Host) (c : Config) (k : String)
    (hk : k ≠ "checkForDevCert") :
    Config.get (devCertStep host c).1 k = Config.get c k := by
  unfold devCertStep devCertDefault
  split
  · split
    · exact Config.get_set_ne c _ k _ hk
    · rfl
  · rfl

/-- The launch branch does nothing when the request is not `launch`. -/
theorem launchStep_skip (host : Host) (c : Config)
    (h : readIsStr (Config.get c "request") "launch" = false) :
    launchStep host c = .ok (c, none) := by
  simp [launchStep, h]

/-- The attach branch does nothing when its guard is false. -/
theorem attachStep_skip (host : Host) (c : Config)
    (h : (readIsStr (Config.get c "request") "attach" &&
      !optTruthy (Config.get c "processId") &&
      !optTruthy (Config.get c "processName")) = false) :
    attachStep host c = .proceed c none := by
  simp only [attachStep, h]
  rfl

/-! ## Attach resolution claims -/

/-- C3: on an attach request where `processId` or `processName` is already
set, resolution invokes no picker, and whenever it returns a configuration
both fields are unchanged. -/
theorem C3_thm (host : Host) (cfg : Config)
    (hreq : Config.get cfg "request" = some (JVal.str "attach"))
    (hset : optTruthy (Config.get cfg "processId") = true ∨
      optTruthy (Config.get cfg "processName") = true) :
    (resolveDebugConfigurationWithSubstitutedVariables host cfg).pickerUsed
      = none ∧
    ∀ c', (resolveDebugConfigurationWithSubstitutedVariables host cfg).ret
        = .conf c' →
      Config.get c' "processId" = Config.get cfg "processId" ∧
      Config.get c' "processName" = Config.get cfg "processName" := by
  by_cases htype : optTruthy (Config.get cfg "type") = true
  case neg =>
    simp only [resolveDebugConfigurationWithSubstitutedVariables,
      Bool.not_eq_true] at htype ⊢
    rw [htype]
    refine ⟨rfl, ?_⟩
    intro c' h
    cases h
  case pos =>
    have hb : ∀ k, k ≠ "brokeredServicePipeName" →
        Config.get (brokeredStep host cfg) k = Config.get cfg k :=
      fun k hk => brokeredStep_get_ne host cfg k hk
    have hl : launchStep host (brokeredStep host cfg)
        = .ok (brokeredStep host cfg, none) := by
      apply launchStep_skip
      rw [hb "request" (by decide), hreq]
      rfl
    have ha : attachStep host (brokeredStep host cfg)
        = .proceed (brokeredStep host cfg) none := by
      apply attachStep_skip
      rw [hb "processId" (by decide), hb "processName" (by decide)]
      rcases hset with h | h <;> simp [h]
    have hres : resolveDebugConfigurationWithSubstitutedVariables host cfg =
        { ret := .conf (devCertStep host (brokeredStep host cfg)).1,
          finalCfg := (devCertStep host (brokeredStep host cfg)).1,
          devCertChecked := (devCertStep host (brokeredStep host cfg)).2,
          modalErrorShown := false, pickerUsed := none,
          warningShown := none } := by
      unfold resolveDebugConfigurationWithSubstitutedVariables
      rw [htype]
      simp only [Bool.not_true, Bool.false_eq_true, if_false]
      rw [hl]
      dsimp only
      rw [ha]
    rw [hres]
    refine ⟨rfl, ?_⟩
    intro c' h
    cases h
    constructor
    · rw [devCertStep_fst_get_ne host _ _ (by decide),
        hb "processId" (by decide)]
    · rw [devCertStep_fst_get_ne host _ _ (by decide),
        hb "processName" (by decide)]

/-- Witness for C3: an attach configuration with `processId` preset keeps
both fields and uses no picker. -/
theorem C3_witness :
    (resolveDebugConfigurationWithSubstitutedVariables sampleHost
        [("type", JVal.str "coreclr"), ("request", JVal.str "attach"),
         ("processId", JVal.str "42")]).pickerUsed = none ∧
    ∀ c', (resolveDebugConfigurationWithSubstitutedVariables sampleHost
        [("type", JVal.str "coreclr"), ("request", JVal.str "attach"),
         ("processId", JVal.str "42")]).ret = .conf c' →
      Config.get c' "processId" =
        Config.get [("type", JVal.str "coreclr"),
          ("request", JVal.str "attach"),
          ("processId", JVal.str "42")] "processId" ∧
      Config.get c' "processName" =
        Config.get [("type", JVal.str "coreclr"),
          ("request", JVal.str "attach"),
          ("processId", JVal.str "42")] "processName" :=
  C3_thm sampleHost
    [("type", JVal.str "coreclr"), ("request", JVal.str "attach"),
     ("processId", JVal.str "42")] rfl (Or.inl rfl)

/-- The attach branch with an empty process slot and a process selected:
proceed with the enriched configuration. -/
theorem attachStep_picked (host : Host) (c : Config) (p : AttachItem)
    (hreq : Config.get c "request" = some (JVal.str "attach"))
    (hpid : optTruthy (Config.get c "processId") = false)
    (hpname : optTruthy (Config.get c "processName") = false)
    (hpp : pickedProcess host (pickerChoice c) = some p) :
    attachStep host c = .proceed (attachEnrich host c p)
      (some (pickerChoice c)) := by
  unfold attachStep
  rw [hreq, hpid, hpname]
  simp [readIsStr, hpp]

/-- The attach branch with an empty process slot and no process selected:
abort with `undefined`. -/
theorem attachStep_nopick (host : Host) (c : Config)
    (hreq : Config.get c "request" = some (JVal.str "attach"))
    (hpid : optTruthy (Config.get c "processId") = false)
    (hpname : optTruthy (Config.get c "processName") = false)
    (hpp : pickedProcess host (pickerChoice c) = none) :
    attachStep host c = .abortUndefined c (some (pickerChoice c)) := by
  unfold attachStep
  rw [hreq, hpid, hpname]
  simp [readIsStr, hpp]

/-- C4: when an attach resolution selects a process from the picker, on a
`coreclr` configuration on macOS/arm64 the `targetArchitecture` is set to
`x86_64` exactly when the process carries the 0x20000 translation flag and
to `arm64` otherwise, and on any other platform/architecture combination
`targetArchitecture` is left unchanged. -/
theorem C4_thm (host : Host) (cfg : Config) (p : AttachItem)
    (hreq : Config.get cfg "request" = some (JVal.str "attach"))
    (hpid : optTruthy (Config.get cfg "processId") = false)
    (hpname : optTruthy (Config.get cfg "processName") = false)
    (hpick : (if optTruthy (Config.get cfg "pipeTransport") then
      host.remotePick else host.localPick) = some p) :
    ∀ c', (resolveDebugConfigurationWithSubstitutedVariables host cfg).ret
        = .conf c' →
      ((Config.get cfg "type" = some (JVal.str "coreclr") ∧
        host.isMacOS = true ∧ host.architecture = "arm64") →
        Config.get c' "targetArchitecture" =
          some (JVal.str
            (if p.flags &&& 0x20000 ≠ 0 then "x86_64" else "arm64"))) ∧
      (¬(host.isMacOS = true ∧ host.architecture = "arm64") →
        Config.get c' "targetArchitecture" =
          Config.get cfg "targetArchitecture") := by
  by_cases htype : optTruthy (Config.get cfg "type") = true
  case neg =>
    simp only [resolveDebugConfigurationWithSubstitutedVariables,
      Bool.not_eq_true] at htype ⊢
    rw [htype]
    intro c' h
    cases h
  case pos =>
    have hb : ∀ k, k ≠ "brokeredServicePipeName" →
        Config.get (brokeredStep host cfg) k = Config.get cfg k :=
      fun k hk => brokeredStep_get_ne host cfg k hk
    have hl : launchStep host (brokeredStep host cfg)
        = .ok (brokeredStep host cfg, none) := by
      apply launchStep_skip
      rw [hb "request" (by decide), hreq]
      rfl
    have hpp : pickedProcess host (pickerChoice (brokeredStep host cfg))
        = some p := by
      unfold pickerChoice pickedProcess
      rw [hb "pipeTransport" (by decide)]
      cases hpt : optTruthy (Config.get cfg "pipeTransport") <;>
        rw [hpt] at hpick <;> simpa using hpick
    have ha := attachStep_picked host (brokeredStep host cfg) p
      (by rw [hb "request" (by decide)]; exact hreq)
      (by rw [hb "processId" (by decide)]; exact hpid)
      (by rw [hb "processName" (by decide)]; exact hpname) hpp
    have hres : resolveDebugConfigurationWithSubstitutedVariables host cfg =
        { ret := .conf (devCertStep host
            (attachEnrich host (brokeredStep host cfg) p)).1,
          finalCfg := (devCertStep host
            (attachEnrich host (brokeredStep host cfg) p)).1,
          devCertChecked := (devCertStep host
            (attachEnrich host (brokeredStep host cfg) p)).2,
          modalErrorShown := false,
          pickerUsed := some (pickerChoice (brokeredStep host cfg)),
          warningShown := none } := by
      unfold resolveDebugConfigurationWithSubstitutedVariables
      rw [htype]
      simp only [Bool.not_true, Bool.false_eq_true, if_false]
      rw [hl]
      dsimp only
      rw [ha]
    rw [hres]
    intro c' h
    cases h
    constructor
    · rintro ⟨hty, hmac, harch⟩
      rw [devCertStep_fst_get_ne host _ _ (by decide)]
      unfold attachEnrich
      have hcond : (readIsStr (Config.get
            (Config.set (brokeredStep host cfg) "processId" (.str p.id))
            "type") "coreclr" &&
          host.isMacOS && host.architecture = "arm64") = true := by
        rw [Config.get_set_ne _ _ _ _ (by decide), hb "type" (by decide),
          hty, hmac, harch]
        rfl
      rw [hcond]
      simp only [if_true]
      exact Config.get_set_self _ _ _
    · intro hn
      rw [devCertStep_fst_get_ne host _ _ (by decide)]
      unfold attachEnrich
      have hcond : (readIsStr (Config.get
            (Config.set (brokeredStep host cfg) "processId" (.str p.id))
            "type") "coreclr" &&
          host.isMacOS && host.architecture = "arm64") = false := by
        cases hm : host.isMacOS
        · simp [hm]
        · have harch : host.architecture ≠ "arm64" := by
            intro hc
            exact hn ⟨hm, hc⟩
          simp [harch]
      rw [hcond]
      simp only [Bool.false_eq_true, if_false]
      rw [Config.get_set_ne _ _ _ _ (by decide),
        hb "targetArchitecture" (by decide)]

/-- Witness for C4: attaching on macOS/arm64 to a translated process sets
`targetArchitecture` to `x86_64`. -/
theorem C4_witness :
    Config.get [("type", JVal.str "coreclr"), ("request", JVal.str "attach"),
        ("processId", JVal.str "1234"),
        ("targetArchitecture", JVal.str "x86_64")] "targetArchitecture"
      = some (JVal.str "x86_64") := by
  have h := C4_thm sampleHost
    [("type", JVal.str "coreclr"), ("request", JVal.str "attach")]
    { id := "1234", flags := 0x20000 } rfl rfl rfl rfl
    [("type", JVal.str "coreclr"), ("request", JVal.str "attach"),
     ("processId", JVal.str "1234"),
     ("targetArchitecture", JVal.str "x86_64")] rfl
  simpa using h.1 ⟨rfl, rfl, rfl⟩

/-- C5: an attach request with neither `processId` nor `processName` whose
picker yields no process shows the blocking modal error and aborts
resolution with `undefined`. -/
theorem C5_thm (host : Host) (cfg : Config)
    (htype : optTruthy (Config.get cfg "type") = true)
    (hreq : Config.get cfg "request" = some (JVal.str "attach"))
    (hpid : optTruthy (Config.get cfg "processId") = false)
    (hpname : optTruthy (Config.get cfg "processName") = false)
    (hpick : (if optTruthy (Config.get cfg "pipeTransport") then
      host.remotePick else host.localPick) = none) :
    (resolveDebugConfigurationWithSubstitutedVariables host cfg).ret
      = .undef ∧
    (resolveDebugConfigurationWithSubstitutedVariables host cfg).modalErrorShown
      = true := by
  have hb : ∀ k, k ≠ "brokeredServicePipeName" →
      Config.get (brokeredStep host cfg) k = Config.get cfg k :=
    fun k hk => brokeredStep_get_ne host cfg k hk
  have hl : launchStep host (brokeredStep host cfg)
      = .ok (brokeredStep host cfg, none) := by
    apply launchStep_skip
    rw [hb "request" (by decide), hreq]
    rfl
  have hpp : pickedProcess host (pickerChoice (brokeredStep host cfg))
      = none := by
    unfold pickerChoice pickedProcess
    rw [hb "pipeTransport" (by decide)]
    cases hpt : optTruthy (Config.get cfg "pipeTransport") <;>
      rw [hpt] at hpick <;> simpa using hpick
  have ha := attachStep_nopick host (brokeredStep host cfg)
    (by rw [hb "request" (by decide)]; exact hreq)
    (by rw [hb "processId" (by decide)]; exact hpid)
    (by rw [hb "processName" (by decide)]; exact hpname) hpp
  have hres : resolveDebugConfigurationWithSubstitutedVariables host cfg =
      { ret := .undef, finalCfg := brokeredStep host cfg,
        devCertChecked := false, modalErrorShown := true,
        pickerUsed := some (pickerChoice (brokeredStep host cfg)),
        warningShown := none } := by
    unfold resolveDebugConfigurationWithSubstitutedVariables
    rw [htype]
    simp only [Bool.not_true, Bool.false_eq_true, if_false]
    rw [hl]
    dsimp only
    rw [ha]
  rw [hres]
  exact ⟨rfl, rfl⟩

/-- Witness for C5: a local attach with no process offered aborts with
`undefined` after the modal error. -/
theorem C5_witness :
    (resolveDebugConfigurationWithSubstitutedVariables
        { sampleHost with localPick := none }
        [("type", JVal.str "coreclr"),
         ("request", JVal.str "attach")]).ret = .undef ∧
    (resolveDebugConfigurationWithSubstitutedVariables
        { sampleHost with localPick := none }
        [("type", JVal.str "coreclr"),
         ("request", JVal.str "attach")]).modalErrorShown = true :=
  C5_thm { sampleHost with localPick := none }
    [("type", JVal.str "coreclr"), ("request", JVal.str "attach")]
    rfl rfl rfl rfl rfl

/-! ## Dev-certificate defaulting -/

theorem readIsStr_eq_true_iff (o : Option JVal) (t : String) :
    readIsStr o t = true ↔ o = some (.str t) := by
  cases o with
  | none => simp [readIsStr]
  | some v => cases v <;> simp [readIsStr]

/-- Case analysis of the dev-certificate step's configuration result: either
every guard holds and `checkForDevCert` is set to `true`, or some guard
fails and the configuration is untouched. -/
theorem devCertStep_cases (host : Host) (c : Config) :
    ((devCertStep host c).1 = Config.set c "checkForDevCert" (.bool true) ∧
      host.isLinux = false ∧ remoteNameTruthy host.remoteName = false ∧
      host.uiKindIsWeb = false ∧
      optTruthy (Config.get c "pipeTransport") = false ∧
      isUndefinedRead (Config.get c "checkForDevCert") = true ∧
      optTruthy (Config.get c "serverReadyAction") = true ∧
      readIsStr (Config.get c "type") "coreclr" = true) ∨
    ((devCertStep host c).1 = c ∧
      ¬(host.isLinux = false ∧ remoteNameTruthy host.remoteName = false ∧
        host.uiKindIsWeb = false ∧
        optTruthy (Config.get c "pipeTransport") = false ∧
        isUndefinedRead (Config.get c "checkForDevCert") = true ∧
        optTruthy (Config.get c "serverReadyAction") = true ∧
        readIsStr (Config.get c "type") "coreclr" = true)) := by
  unfold devCertStep devCertDefault
  split
  case isTrue houter =>
    simp only [Bool.and_eq_true, Bool.not_eq_true'] at houter
    split
    case isTrue hinner =>
      simp only [Bool.and_eq_true] at hinner
      exact Or.inl ⟨rfl, houter.1.1.1, houter.1.1.2, houter.1.2, houter.2,
        hinner.1.1, hinner.1.2, hinner.2⟩
    case isFalse hinner =>
      refine Or.inr ⟨rfl, ?_⟩
      rintro ⟨-, -, -, -, h5, h6, h7⟩
      exact hinner (by rw [h5, h6, h7]; rfl)
  case isFalse houter =>
    refine Or.inr ⟨rfl, ?_⟩
    rintro ⟨h1, h2, h3, h4, -, -, -⟩
    exact houter (by rw [h1, h2, h3, h4]; rfl)

/-- C10 (amended): when resolution returns a configuration (it did not abort
earlier through the attach picker or the env-file parser), `checkForDevCert`
is set to `true` exactly under the guard of the dev-certificate step, and is
otherwise left as given. -/
theorem C10_thm (host : Host) (cfg : Config) (c' : Config)
    (hret : (resolveDebugConfigurationWithSubstitutedVariables host cfg).ret
      = .conf c') :
    ((host.isLinux = false ∧ remoteNameTruthy host.remoteName = false ∧
      host.uiKindIsWeb = false ∧
      optTruthy (Config.get cfg "pipeTransport") = false ∧
      isUndefinedRead (Config.get cfg "checkForDevCert") = true ∧
      optTruthy (Config.get cfg "serverReadyAction") = true ∧
      Config.get cfg "type" = some (JVal.str "coreclr")) →
      Config.get c' "checkForDevCert" = some (JVal.bool true)) ∧
    (¬(host.isLinux = false ∧ remoteNameTruthy host.remoteName = false ∧
      host.uiKindIsWeb = false ∧
      optTruthy (Config.get cfg "pipeTransport") = false ∧
      isUndefinedRead (Config.get cfg "checkForDevCert") = true ∧
      optTruthy (Config.get cfg "serverReadyAction") = true ∧
      Config.get cfg "type" = some (JVal.str "coreclr")) →
      Config.get c' "checkForDevCert" = Config.get cfg "checkForDevCert") := by
  by_cases htype : optTruthy (Config.get cfg "type") = true
  case neg =>
    rw [Bool.not_eq_true] at htype
    unfold resolveDebugConfigurationWithSubstitutedVariables at hret
    rw [htype] at hret
    simp at hret
  case pos =>
    unfold resolveDebugConfigurationWithSubstitutedVariables at hret
    rw [htype] at hret
    simp only [Bool.not_true, Bool.false_eq_true, if_false] at hret
    cases hls : launchStep host (brokeredStep host cfg) with
    | error pr =>
      rw [hls] at hret
      simp at hret
    | ok pr =>
      obtain ⟨cfg2, w⟩ := pr
      rw [hls] at hret
      dsimp only at hret
      cases has : attachStep host cfg2 with
      | abortUndefined c pk =>
        rw [has] at hret
        simp at hret
      | proceed cfg3 pk =>
        rw [has] at hret
        simp only [ResolveWSRet.conf.injEq] at hret
        subst hret
        have hkeep : ∀ k, k ≠ "brokeredServicePipeName" → k ≠ "cwd" →
            k ≠ "internalConsoleOptions" → k ≠ "env" → k ≠ "envFile" →
            k ≠ "processId" → k ≠ "targetArchitecture" →
            Config.get cfg3 k = Config.get cfg k := by
          intro k h1 h2 h3 h4 h5 h6 h7
          rw [attachStep_proceed_get_ne host cfg2 cfg3 pk has k h6 h7,
            launchStep_get_ne host _ cfg2 w hls k h2 h3 h4 h5,
            brokeredStep_get_ne host cfg k h1]
        constructor
        · rintro ⟨hLin, hRem, hWeb, hPipe, hCdc, hSra, hTy⟩
          rcases devCertStep_cases host cfg3 with ⟨heq, -⟩ | ⟨-, hneg⟩
          · rw [heq]
            exact Config.get_set_self cfg3 _ _
          · refine absurd ⟨hLin, hRem, hWeb, ?_, ?_, ?_, ?_⟩ hneg
            · rw [hkeep "pipeTransport" (by decide) (by decide) (by decide)
                (by decide) (by decide) (by decide) (by decide)]
              exact hPipe
            · rw [hkeep "checkForDevCert" (by decide) (by decide) (by decide)
                (by decide) (by decide) (by decide) (by decide)]
              exact hCdc
            · rw [hkeep "serverReadyAction" (by decide) (by decide) (by decide)
                (by decide) (by decide) (by decide) (by decide)]
              exact hSra
            · rw [hkeep "type" (by decide) (by decide) (by decide)
                (by decide) (by decide) (by decide) (by decide), hTy]
              rfl
        · intro hn
          rcases devCertStep_cases host cfg3 with ⟨-, hLin, hRem, hWeb, hPipe,
            hCdc, hSra, hTy⟩ | ⟨heq, -⟩
          · refine absurd ⟨hLin, hRem, hWeb, ?_, ?_, ?_, ?_⟩ hn
            · rw [← hkeep "pipeTransport" (by decide) (by decide) (by decide)
                (by decide) (by decide) (by decide) (by decide)]
              exact hPipe
            · rw [← hkeep "checkForDevCert" (by decide) (by decide) (by decide)
                (by decide) (by decide) (by decide) (by decide)]
              exact hCdc
            · rw [← hkeep "serverReadyAction" (by decide) (by decide) (by decide)
                (by decide) (by decide) (by decide) (by decide)]
              exact hSra
            · rw [← hkeep "type" (by decide) (by decide) (by decide)
                (by decide) (by decide) (by decide) (by decide)]
              exact (readIsStr_eq_true_iff _ _).mp hTy
          · rw [heq]
            exact hkeep "checkForDevCert" (by decide) (by decide) (by decide)
              (by decide) (by decide) (by decide) (by decide)

/-- C10 counterexample: an attach configuration meeting every stated
condition (non-Linux desktop session, no pipe transport, `checkForDevCert`
undefined, `serverReadyAction` set, type `coreclr`) on which resolution
aborts in the attach picker, so `checkForDevCert` is never set. -/
theorem C10_cex :
    ({ sampleHost with localPick := none } : Host).isLinux = false ∧
    remoteNameTruthy ({ sampleHost with localPick := none } : Host).remoteName
      = false ∧
    ({ sampleHost with localPick := none } : Host).uiKindIsWeb = false ∧
    optTruthy (Config.get
      [("type", JVal.str "coreclr"), ("request", JVal.str "attach"),
       ("serverReadyAction", JVal.str "openExternally")] "pipeTransport")
      = false ∧
    isUndefinedRead (Config.get
      [("type", JVal.str "coreclr"), ("request", JVal.str "attach"),
       ("serverReadyAction", JVal.str "openExternally")] "checkForDevCert")
      = true ∧
    optTruthy (Config.get
      [("type", JVal.str "coreclr"), ("request", JVal.str "attach"),
       ("serverReadyAction", JVal.str "openExternally")] "serverReadyAction")
      = true ∧
    Config.get
      [("type", JVal.str "coreclr"), ("request", JVal.str "attach"),
       ("serverReadyAction", JVal.str "openExternally")] "type"
      = some (JVal.str "coreclr") ∧
    Config.get (resolveDebugConfigurationWithSubstitutedVariables
      { sampleHost with localPick := none }
      [("type", JVal.str "coreclr"), ("request", JVal.str "attach"),
       ("serverReadyAction", JVal.str "openExternally")]).finalCfg
      "checkForDevCert" = none :=
  ⟨rfl, rfl, rfl, rfl, rfl, rfl, rfl, rfl⟩

/-- Witness for C10 on a launch configuration with a `serverReadyAction`:
the returned configuration carries `checkForDevCert = true`. -/
theorem C10_witness :
    Config.get [("type", JVal.str "coreclr"),
      ("request", JVal.str "launch"),
      ("serverReadyAction", JVal.str "openExternally"),
      ("cwd", JVal.str "/work"),
      ("internalConsoleOptions", JVal.str "openOnSessionStart"),
      ("checkForDevCert", JVal.bool true)] "checkForDevCert"
      = some (JVal.bool true) := by
  have h := C10_thm sampleHost
    [("type", JVal.str "coreclr"), ("request", JVal.str "launch"),
     ("serverReadyAction", JVal.str "openExternally")]
    [("type", JVal.str "coreclr"), ("request", JVal.str "launch"),
     ("serverReadyAction", JVal.str "openExternally"),
     ("cwd", JVal.str "/work"),
     ("internalConsoleOptions", JVal.str "openOnSessionStart"),
     ("checkForDevCert", JVal.bool true)] rfl
  exact h.1 ⟨rfl, rfl, rfl, rfl, rfl, rfl, rfl⟩

/-! ## Settings merge -/

/-- Case analysis of one settings-merge iteration: skipped because the key
is present or reserved, skipped because the value is empty, or merged. -/
theorem mergeSetting_cases (c : Config) (kv : String × JVal) (c1 : Config)
    (h : mergeSetting c kv = .ok c1) :
    ((Config.hasKey c kv.1 = true ∨ kv.1 = "console") ∧ c1 = c) ∨
    (Config.hasKey c kv.1 = false ∧ kv.1 ≠ "console" ∧
      CheckIfSettingIsEmpty kv.2 = .ok true ∧ c1 = c) ∨
    (Config.hasKey c kv.1 = false ∧ kv.1 ≠ "console" ∧
      CheckIfSettingIsEmpty kv.2 = .ok false ∧
      c1 = Config.set c kv.1 kv.2) := by
  unfold mergeSetting at h
  split at h
  case isTrue hg =>
    simp only [Bool.or_eq_true, decide_eq_true_eq] at hg
    simp only [pure, Except.pure, Except.ok.injEq] at h
    exact Or.inl ⟨hg, h.symm⟩
  case isFalse hg =>
    simp only [Bool.or_eq_true, decide_eq_true_eq, not_or,
      Bool.not_eq_true] at hg
    cases hce : CheckIfSettingIsEmpty kv.2 with
    | error e =>
      rw [hce] at h
      simp [Except.bind] at h
    | ok b =>
      rw [hce] at h
      simp only [bind, Except.bind, pure, Except.pure, Except.ok.injEq] at h
      cases b with
      | true =>
        simp only [reduceIte] at h
        exact Or.inr (Or.inl ⟨hg.1, hg.2, rfl, h.symm⟩)
      | false =>
        simp only [Bool.false_eq_true, reduceIte] at h
        exact Or.inr (Or.inr ⟨hg.1, hg.2, rfl, h.symm⟩)

/-- A key already bound in the configuration keeps its value through the
settings merge. -/
theorem loadSetting_keeps (settings : List (String × JVal)) (c c' : Config)
    (k : String) (w : JVal) (hw : Config.get c k = some w)
    (h : loadSettingDebugOptions settings c = .ok c') :
    Config.get c' k = some w := by
  induction settings generalizing c with
  | nil =>
    simp only [loadSettingDebugOptions, pure, Except.pure,
      Except.ok.injEq] at h
    rw [← h]
    exact hw
  | cons kv rest ih =>
    rw [loadSettingDebugOptions] at h
    cases hm : mergeSetting c kv with
    | error e =>
      rw [hm] at h
      simp [bind, Except.bind] at h
    | ok c1 =>
      rw [hm] at h
      simp only [bind, Except.bind] at h
      rcases mergeSetting_cases c kv c1 hm with ⟨-, heq⟩ |
        ⟨-, -, -, heq⟩ | ⟨hnk, -, -, heq⟩
      · rw [heq] at h
        exact ih c hw h
      · rw [heq] at h
        exact ih c hw h
      · have hne : k ≠ kv.1 := by
          rintro rfl
          rw [Config.hasKey, hw] at hnk
          simp at hnk
        rw [heq] at h
        exact ih _ (by rw [Config.get_set_ne _ _ _ _ hne]; exact hw) h

/-- The reserved `console` key is never introduced by the settings merge. -/
theorem loadSetting_console (settings : List (String × JVal)) (c c' : Config)
    (hc : Config.get c "console" = none)
    (h : loadSettingDebugOptions settings c = .ok c') :
    Config.get c' "console" = none := by
  induction settings generalizing c with
  | nil =>
    simp only [loadSettingDebugOptions, pure, Except.pure,
      Except.ok.injEq] at h
    rw [← h]
    exact hc
  | cons kv rest ih =>
    rw [loadSettingDebugOptions] at h
    cases hm : mergeSetting c kv with
    | error e =>
      rw [hm] at h
      simp [bind, Except.bind] at h
    | ok c1 =>
      rw [hm] at h
      simp only [bind, Except.bind] at h
      rcases mergeSetting_cases c kv c1 hm with ⟨-, heq⟩ |
        ⟨-, -, -, heq⟩ | ⟨-, hk, -, heq⟩
      · rw [heq] at h
        exact ih c hc h
      · rw [heq] at h
        exact ih c hc h
      · rw [heq] at h
        exact ih _ (by rw [Config.get_set_ne _ _ _ _ (Ne.symm hk)]; exact hc) h

/-- A key absent from the configuration and from the settings stays absent
through the settings merge. -/
theorem loadSetting_absent (settings : List (String × JVal)) (c c' : Config)
    (k : String) (hc : Config.get c k = none)
    (hnotin : k ∉ settings.map Prod.fst)
    (h : loadSettingDebugOptions settings c = .ok c') :
    Config.get c' k = none := by
  induction settings generalizing c with
  | nil =>
    simp only [loadSettingDebugOptions, pure, Except.pure,
      Except.ok.injEq] at h
    rw [← h]
    exact hc
  | cons kv rest ih =>
    rw [loadSettingDebugOptions] at h
    have hk1 : k ≠ kv.1 := by
      rintro rfl
      exact hnotin (by simp)
    have hrest : k ∉ rest.map Prod.fst := by
      intro hmem
      exact hnotin (by simp [hmem])
    cases hm : mergeSetting c kv with
    | error e =>
      rw [hm] at h
      simp [bind, Except.bind] at h
    | ok c1 =>
      rw [hm] at h
      simp only [bind, Except.bind] at h
      rcases mergeSetting_cases c kv c1 hm with ⟨-, heq⟩ |
        ⟨-, -, -, heq⟩ | ⟨-, -, -, heq⟩
      · rw [heq] at h
        exact ih c hc hrest h
      · rw [heq] at h
        exact ih c hc hrest h
      · rw [heq] at h
        exact ih _ (by rw [Config.get_set_ne _ _ _ _ hk1]; exact hc) hrest h

/-- A settings entry whose key is absent from the configuration and not
reserved is merged exactly when its value is non-empty. -/
theorem loadSetting_merges (settings : List (String × JVal)) (c c' : Config)
    (k : String) (v : JVal) (hmem : (k, v) ∈ settings)
    (hnd : (settings.map Prod.fst).Nodup)
    (hnone : Config.get c k = none) (hk : k ≠ "console")
    (h : loadSettingDebugOptions settings c = .ok c') :
    (CheckIfSettingIsEmpty v = .ok false → Config.get c' k = some v) ∧
    (CheckIfSettingIsEmpty v = .ok true → Config.get c' k = none) := by
  induction settings generalizing c with
  | nil => cases hmem
  | cons kv rest ih =>
    rw [loadSettingDebugOptions] at h
    cases hm : mergeSetting c kv with
    | error e =>
      rw [hm] at h
      simp [bind, Except.bind] at h
    | ok c1 =>
      rw [hm] at h
      simp only [bind, Except.bind] at h
      simp only [List.map_cons, List.nodup_cons] at hnd
      rcases List.mem_cons.mp hmem with heq | hmem'
      · have hkv1 : kv.1 = k := by rw [← heq]
        have hkv2 : kv.2 = v := by rw [← heq]
        have hrest : k ∉ rest.map Prod.fst := by
          rw [← hkv1]
          exact hnd.1
        rcases mergeSetting_cases c kv c1 hm with ⟨hg, heq⟩ |
          ⟨-, -, hce, heq⟩ | ⟨-, -, hce, heq⟩
        · rcases hg with hg | hg
          · rw [hkv1, Config.hasKey, hnone] at hg
            simp at hg
          · rw [hkv1] at hg
            exact absurd hg hk
        · rw [hkv2] at hce
          rw [heq] at h
          constructor
          · intro hfalse
            rw [hce] at hfalse
            cases hfalse
          · intro _
            exact loadSetting_absent rest c c' k hnone hrest h
        · rw [hkv2] at hce
          rw [heq] at h
          constructor
          · intro _
            refine loadSetting_keeps rest _ c' k v ?_ h
            rw [← hkv1, ← hkv2]
            exact Config.get_set_self c kv.1 kv.2
          · intro htrue
            rw [hce] at htrue
            cases htrue
      · have hk1 : kv.1 ≠ k := by
          intro he
          exact hnd.1 (he ▸ List.mem_map_of_mem Prod.fst hmem')
        rcases mergeSetting_cases c kv c1 hm with ⟨-, heq⟩ |
          ⟨-, -, -, heq⟩ | ⟨-, -, -, heq⟩
        · rw [heq] at h
          exact ih c hmem' hnd.2 hnone h
        · rw [heq] at h
          exact ih c hmem' hnd.2 hnone h
        · rw [heq] at h
          exact ih _ hmem' hnd.2
            (by rw [Config.get_set_ne _ _ _ _ (Ne.symm hk1)]; exact hnone) h

/-- C1 (amended): for a settings entry `(k, v)` and a non-empty explicit
configuration, resolution keeps the configuration's own value when the key
is present; when the key is absent it merges `v` exactly when `k` is not the
reserved `console` key and `v` is non-empty (per `CheckIfSettingIsEmpty`),
and leaves the key absent when `k` is reserved or `v` is empty. -/
theorem C1_thm (hasDevKit : Bool) (settings : List (String × JVal))
    (cfg c' : Config) (k : String) (v : JVal)
    (hnd : (settings.map Prod.fst).Nodup)
    (hmem : (k, v) ∈ settings)
    (hres : resolveDebugConfiguration hasDevKit settings cfg
      = .ok (.config c')) :
    (∀ w, Config.get cfg k = some w → Config.get c' k = some w) ∧
    (Config.get cfg k = none → k ≠ "console" →
      CheckIfSettingIsEmpty v = .ok false → Config.get c' k = some v) ∧
    (Config.get cfg k = none →
      (k = "console" ∨ CheckIfSettingIsEmpty v = .ok true) →
      Config.get c' k = none) := by
  have hload : loadSettingDebugOptions settings cfg = .ok c' := by
    unfold resolveDebugConfiguration at hres
    split at hres
    · cases hasDevKit <;> simp [pure, Except.pure] at hres
    · cases hl : loadSettingDebugOptions settings cfg with
      | error e =>
        rw [hl] at hres
        simp [bind, Except.bind] at hres
      | ok c'' =>
        rw [hl] at hres
        simp only [bind, Except.bind, pure, Except.pure, Except.ok.injEq,
          ResolveRet.config.injEq] at hres
        rw [← hres]
  refine ⟨?_, ?_, ?_⟩
  · intro w hw
    exact loadSetting_keeps settings cfg c' k w hw hload
  · intro hnone hk hce
    exact (loadSetting_merges settings cfg c' k v hmem hnd hnone hk hload).1 hce
  · intro hnone hdisj
    by_cases hk : k = "console"
    · subst hk
      exact loadSetting_console settings cfg c' hnone hload
    · rcases hdisj with heq | hce
      · exact absurd heq hk
      · exact (loadSetting_merges settings cfg c' k v hmem hnd hnone hk
          hload).2 hce

/-- C1 counterexample: the settings entry `("foo", "")` is absent from the
explicit configuration and not the reserved key, yet it is not merged,
because the empty string fails the non-emptiness check. -/
theorem C1_cex :
    Config.hasKey [("type", JVal.str "coreclr")] "foo" = false ∧
    ("foo" : String) ≠ "console" ∧
    resolveDebugConfiguration false [("foo", JVal.str "")]
      [("type", JVal.str "coreclr")]
      = .ok (.config [("type", JVal.str "coreclr")]) ∧
    Config.get [("type", JVal.str "coreclr")] "foo" = none :=
  ⟨rfl, by decide, rfl, rfl⟩

/-- Witness for C1: a non-empty settings value for an absent key is merged,
and the configuration's own `type` survives. -/
theorem C1_witness :
    Config.get [("type", JVal.str "coreclr"),
      ("justMyCode", JVal.bool false)] "justMyCode"
      = some (JVal.bool false) :=
  (C1_thm false [("justMyCode", JVal.bool false)]
    [("type", JVal.str "coreclr")]
    [("type", JVal.str "coreclr"), ("justMyCode", JVal.bool false)]
    "justMyCode" (JVal.bool false) (by simp) (by simp) rfl).2.1
    rfl (by decide) rfl

end VsCsharp
